import Mathlib

/-!
Shallow embedding of the SmartBatcher request-coalescing cache
(src/src/index.ts) in Lean 4.

Modelling conventions:

* Queries have an abstract type `Q`, cached values an abstract type `V`,
  and raw (collaborator-supplied, non-taxonomy) JavaScript errors an
  abstract type `E`.
* The JavaScript object `this.memoryStore : Record<string, T>` is an
  association list `List (String × V)`; object assignment replaces an
  existing binding in place and appends a fresh one.
* `this.expirationTimers` is an association list from key to the absolute
  time at which the armed `setTimeout` callback fires; a `setTimeout`
  armed at time `now` with delay `expirationTime` fires at
  `now + expirationTime`.  The host runtime running every due callback is
  modelled by `fireDueTimers`.
* Promises are collapsed to sequential execution.  One scheduling fact of
  the source is kept faithfully: inside one batch flush the un-awaited
  `setValue` calls all evaluate `checkMemoryAvailability` synchronously,
  against the store as it was when the flush started, while the writes
  themselves land afterwards in item order.  The demultiplexers below
  therefore check against the pre-flush store `store0` and thread the
  written store separately.
* Event emission is fire-and-forget except for the `getValue` event: a
  throwing listener there is the one way `get` can reject, which the
  `load`/`loadMany` cache-read error paths depend on, so the
  configuration carries a fallible `onGetValue` sink.  The remaining
  emits do not feed back into any modelled behaviour and are dropped.
* The error classes `BatcherError`/`CacheError`/`BatchFunctionError`/
  `MemoryLimitError`/`NotFoundError` become one inductive `BatchError`;
  the `query` payload field (of dynamic type in the source) becomes
  `ErrQuery`; the source wraps keys in single quotes inside messages,
  the quotes are omitted here.
-/

namespace SmartBatcher

/-- Lookup in a JavaScript-object-as-association-list. -/
def alistGet {α : Type} (l : List (String × α)) (k : String) : Option α :=
  (l.find? (fun p => p.1 == k)).map Prod.snd

/-- Membership test (the JavaScript `key in obj`). -/
def alistHas {α : Type} (l : List (String × α)) (k : String) : Bool :=
  l.any (fun p => p.1 == k)

/-- JavaScript object assignment `obj[k] = v`: replace every binding of `k`
in place if one exists, otherwise append. -/
def alistSet {α : Type} (l : List (String × α)) (k : String) (v : α) :
    List (String × α) :=
  if alistHas l k then
    l.map (fun p => if p.1 == k then (k, v) else p)
  else
    l ++ [(k, v)]

/-- JavaScript `delete obj[k]`. -/
def alistDelete {α : Type} (l : List (String × α)) (k : String) :
    List (String × α) :=
  l.filter (fun p => !(p.1 == k))

/-- The dynamic `query` payload stored inside a BatcherError: a single
normalized query, the whole list of queries sent to the batch function, or
the `\x7b key, value \x7d` object used by MemoryLimitError. -/
inductive ErrQuery (Q V : Type) where
  | one : Q → ErrQuery Q V
  | many : List Q → ErrQuery Q V
  | keyValue : String → V → ErrQuery Q V

/-- The error taxonomy of the source (subclasses of BatcherError), plus
`raw` for an opaque error produced by an external collaborator (the batch
function, or a throwing event listener).  `cause` arguments mirror the
constructor calls in the source: CacheError is always built with a cause,
BatchFunctionError sometimes without, the other two never. -/
inductive BatchError (Q V E : Type) where
  | raw : E → BatchError Q V E
  | cacheError : String → ErrQuery Q V → BatchError Q V E → BatchError Q V E
  | batchFunctionError : String → ErrQuery Q V → Option (BatchError Q V E) →
      BatchError Q V E
  | memoryLimitError : String → ErrQuery Q V → BatchError Q V E
  | notFoundError : String → ErrQuery Q V → BatchError Q V E

/-- Discriminator: is this error an instance of BatchFunctionError? -/
def BatchError.isBatchFnError {Q V E : Type} : BatchError Q V E → Bool
  | .batchFunctionError _ _ _ => true
  | _ => false

/-- Discriminator: is this error an instance of CacheError? -/
def BatchError.isCacheErr {Q V E : Type} : BatchError Q V E → Bool
  | .cacheError _ _ _ => true
  | _ => false

/-- One outcome slot of the array resolved by the batch function:
`T | Error | null`. -/
inductive FetchOutcome (Q V E : Type) where
  | value : V → FetchOutcome Q V E
  | err : BatchError Q V E → FetchOutcome Q V E
  | nullValue : FetchOutcome Q V E

/-- What awaiting the batch function can produce: an array of outcomes, a
resolved non-array value, or a rejection carrying a cause. -/
inductive FetchResult (Q V E : Type) where
  | arr : List (FetchOutcome Q V E) → FetchResult Q V E
  | nonArray : FetchResult Q V E
  | reject : BatchError Q V E → FetchResult Q V E

/-- The SmartBatcher configuration (constructor options) together with the
external collaborators the instance closes over: the size estimator used
by `checkMemoryAvailability`, and the `getValue` event listeners (a
throwing listener makes `get` reject, surfaced as `Except.error`).
`cacheKeyProject` models `extractCacheKey` over opaque queries: `none`
when `cacheKeyFields` is null or empty, otherwise the field projection as
a function. -/
structure Config (Q V E : Type) where
  delay : Nat
  memoryLimitMB : ℚ
  expirationTime : Nat
  hashFn : Q → String
  queryNormalizer : Q → Q
  cacheKeyProject : Option (Q → Q)
  sizeofFn : List (String × V) → ℚ
  onGetValue : String → Option V → Except E Unit

/-- The cache store state: `memoryStore` and the armed per-key expiration
timers (absolute firing times). -/
structure StoreState (V : Type) where
  memoryStore : List (String × V)
  expirationTimers : List (String × Nat)

/-- extractCacheKey: identity when no cacheKeyFields are configured,
otherwise the configured field projection. -/
def extractCacheKey {Q V E : Type} (cfg : Config Q V E) (q : Q) : Q :=
  match cfg.cacheKeyProject with
  | none => q
  | some f => f q

/-- The cache key `load`/`loadMany` derive for a raw query:
`hashFn(extractCacheKey(queryNormalizer(query)))`. -/
def keyOf {Q V E : Type} (cfg : Config Q V E) (q : Q) : String :=
  cfg.hashFn (extractCacheKey cfg (cfg.queryNormalizer q))

/-- checkMemoryAvailability: the projected size in MB of the store plus
the new singleton record, compared against memoryLimitMB. -/
def checkMemoryAvailability {Q V E : Type} (cfg : Config Q V E)
    (store : List (String × V)) (newData : List (String × V)) : Bool :=
  decide ((cfg.sizeofFn store + cfg.sizeofFn newData) / 1024 / 1024 ≤
    cfg.memoryLimitMB)

/-- setExpiration at absolute time `now`: when expirationTime is positive,
cancel any armed timer for the key and arm one firing at
`now + expirationTime`; otherwise leave the timers alone. -/
def setExpiration {Q V E : Type} (cfg : Config Q V E) (now : Nat)
    (timers : List (String × Nat)) (key : String) : List (String × Nat) :=
  if cfg.expirationTime > 0 then
    alistSet timers key (now + cfg.expirationTime)
  else
    timers

/-- Core of setValue, with the store used for the memory check passed
separately: during a batch flush every un-awaited setValue call runs its
check against the pre-flush store while the writes land afterwards in
order, so the check store and the written store can differ. -/
def setValueChecked {Q V E : Type} (cfg : Config Q V E) (now : Nat)
    (checkStore : List (String × V)) (st : StoreState V) (key : String)
    (v : V) : Except (BatchError Q V E) (StoreState V) :=
  if checkMemoryAvailability cfg checkStore [(key, v)] then
    .ok { memoryStore := alistSet st.memoryStore key v,
          expirationTimers := setExpiration cfg now st.expirationTimers key }
  else
    .error (.memoryLimitError
      ("Not enough memory to save data for key " ++ key) (.keyValue key v))

/-- setValue called directly (awaited): the memory check reads the same
store the write goes to.  A MemoryLimitError is thrown before any
mutation, so on `Except.error` the caller keeps the old store. -/
def setValue {Q V E : Type} (cfg : Config Q V E) (now : Nat)
    (st : StoreState V) (key : String) (v : V) :
    Except (BatchError Q V E) (StoreState V) :=
  setValueChecked cfg now st.memoryStore st key v

/-- The store a caller of setValue is left with: the committed store on
success, the untouched prior store when setValue throws. -/
def setValueRun {Q V E : Type} (cfg : Config Q V E) (now : Nat)
    (st : StoreState V) (key : String) (v : V) : StoreState V :=
  match setValue (E := E) cfg now st key v with
  | .ok st2 => st2
  | .error _ => st

/-- deleteValue: drop the binding and cancel its timer, returning the
previously stored value (absent keys give none). -/
def deleteValue {V : Type} (st : StoreState V) (key : String) :
    StoreState V × Option V :=
  ({ memoryStore := alistDelete st.memoryStore key,
     expirationTimers := alistDelete st.expirationTimers key },
   alistGet st.memoryStore key)

/-- restartAllValues (= clearCache): empty the store and cancel every
timer. -/
def restartAllValues {V : Type} (_st : StoreState V) : StoreState V :=
  { memoryStore := [], expirationTimers := [] }

/-- get: read the binding and emit the getValue event; a throwing listener
rejects the promise, surfaced as `Except.error`. -/
def get {Q V E : Type} (cfg : Config Q V E) (st : StoreState V)
    (key : String) : Except E (Option V) :=
  let value := alistGet st.memoryStore key
  match cfg.onGetValue key value with
  | .error e => .error e
  | .ok _ => .ok value

/-- has: the JavaScript `key in this.memoryStore`. -/
def has {V : Type} (st : StoreState V) (key : String) : Bool :=
  alistHas st.memoryStore key

/-- The host runtime executing, at time `now`, every armed expiration
callback whose firing time has been reached; each callback is
`deleteValue key` (plus an expiredValue notification, dropped here). -/
def fireDueTimers {V : Type} (st : StoreState V) (now : Nat) : StoreState V :=
  let due := st.expirationTimers.filter (fun p => p.2 ≤ now)
  { memoryStore :=
      st.memoryStore.filter (fun p => !(due.any (fun d => d.1 == p.1))),
    expirationTimers := st.expirationTimers.filter (fun p => !(p.2 ≤ now)) }

/-- One pending request in the scheduler queue.  The resolve/reject
continuations are represented by the `Settlement` each waiter receives
from `executeBatch`. -/
structure QueueItem (Q : Type) where
  key : String
  originalQuery : Q

/-- How a pending waiter ends up: resolved with a value, rejected with an
error, or never settled at all (its promise stays pending forever). -/
inductive Settlement (Q V E : Type) where
  | resolved : V → Settlement Q V E
  | rejected : BatchError Q V E → Settlement Q V E
  | pending : Settlement Q V E

/-- Discriminator: was the waiter rejected with a BatchFunctionError? -/
def Settlement.isBatchFnRejection {Q V E : Type} : Settlement Q V E → Bool
  | .rejected e => e.isBatchFnError
  | _ => false

/-- The mutable state of a SmartBatcher instance: the pending queue, the
`scheduled` flag, and the cache store.  `pendingFlushes` is not a source
field: it counts the executeBatch callbacks currently handed to
setTimeout/setImmediate and not yet run, which is what makes the
fetch-once coalescing guarantee expressible. -/
structure BatcherState (Q V : Type) where
  queue : List (QueueItem Q)
  scheduled : Bool
  pendingFlushes : Nat
  store : StoreState V

/-- scheduleBatch: arm an executeBatch callback only when none is armed
yet (the `scheduled` flag). -/
def scheduleBatch {Q V : Type} (st : BatcherState Q V) : BatcherState Q V :=
  if st.scheduled then st
  else { st with scheduled := true, pendingFlushes := st.pendingFlushes + 1 }

/-- What load returns to its caller: the cached value on a hit, a
rejection (only the cache-read CacheError path), or a registered waiter
whose settlement will come from the batch flush. -/
inductive LoadResult (Q V E : Type) where
  | hit : V → LoadResult Q V E
  | rejected : BatchError Q V E → LoadResult Q V E
  | enqueued : LoadResult Q V E

/-- load: normalize, derive the key, consult the cache.  A throwing cache
read rejects with a CacheError and registers nothing; a hit returns the
value; a miss pushes a waiter carrying the normalized query and calls
scheduleBatch. -/
def load {Q V E : Type} (cfg : Config Q V E) (st : BatcherState Q V)
    (query : Q) : LoadResult Q V E × BatcherState Q V :=
  let normalizedQuery := cfg.queryNormalizer query
  let key := cfg.hashFn (extractCacheKey cfg normalizedQuery)
  match get cfg st.store key with
  | .error e =>
      (.rejected (.cacheError
          ("Error getting value from cache for key " ++ key)
          (.one normalizedQuery) (.raw e)),
       st)
  | .ok (some v) => (.hit v, st)
  | .ok none =>
      (.enqueued,
       scheduleBatch
         { st with
             queue := st.queue ++ [{ key := key,
                                     originalQuery := normalizedQuery }] })

/-- A burst of load calls issued inside one synchronous turn (no armed
callback runs in between). -/
def loadBurst {Q V E : Type} (cfg : Config Q V E) (st : BatcherState Q V) :
    List Q → BatcherState Q V
  | [] => st
  | q :: qs => loadBurst cfg (load cfg st q).2 qs

/-- The demultiplexing loop of executeBatch over the resolved outcome
array.  `store0` is the store at flush start, against which every
un-awaited setValue runs its memory check; the committed store is
threaded through `st`.  Outcomes beyond the queue are ignored (the source
returns early on an undefined item); queue items beyond the outcome array
are never settled. -/
def demux {Q V E : Type} (cfg : Config Q V E) (now : Nat)
    (store0 : List (String × V)) :
    List (QueueItem Q) → List (FetchOutcome Q V E) → StoreState V →
      StoreState V × List (Settlement Q V E)
  | [], _, st => (st, [])
  | _ :: items, [], st =>
      let r := demux cfg now store0 items [] st
      (r.1, .pending :: r.2)
  | item :: items, outcome :: rest, st =>
      match outcome with
      | .err e =>
          let r := demux cfg now store0 items rest st
          (r.1, .rejected e :: r.2)
      | .nullValue =>
          let r := demux cfg now store0 items rest st
          (r.1, .rejected (.notFoundError ("Not found: " ++ item.key)
              (.one item.originalQuery)) :: r.2)
      | .value v =>
          match setValueChecked cfg now store0 st item.key v with
          | .ok st2 =>
              let r := demux cfg now store0 items rest st2
              (r.1, .resolved v :: r.2)
          | .error se =>
              let r := demux cfg now store0 items rest st
              (r.1, .rejected (.cacheError
                  ("Error setting value in cache during batch for key " ++
                    item.key)
                  (.one item.originalQuery) se) :: r.2)

/-- executeBatch: clear the scheduled flag, swap the queue out, invoke the
batch function once on the original queries in order, and demultiplex.
The third component records the arguments of the fetch invocations this
flush performed (always exactly one). -/
def executeBatch {Q V E : Type} (cfg : Config Q V E)
    (fetch : List Q → FetchResult Q V E) (now : Nat)
    (st : BatcherState Q V) :
    BatcherState Q V × List (Settlement Q V E) × List (List Q) :=
  let currentQueue := st.queue
  let st1 : BatcherState Q V :=
    { st with scheduled := false, queue := [],
              pendingFlushes := st.pendingFlushes - 1 }
  let queries := currentQueue.map (fun item => item.originalQuery)
  let settled : BatcherState Q V × List (Settlement Q V E) :=
    match fetch queries with
    | .nonArray =>
        (st1,
         currentQueue.map (fun _ => .rejected (.batchFunctionError
             "batchFunction must return an array" (.many queries) none)))
    | .reject e =>
        (st1,
         currentQueue.map (fun item => .rejected (.batchFunctionError
             "Error executing batchFunction" (.one item.originalQuery)
             (some e))))
    | .arr rs =>
        let d := demux cfg now st.store.memoryStore currentQueue rs st1.store
        ({ st1 with store := d.1 }, d.2)
  (settled.1, settled.2, [queries])

/-- One position of the array loadMany resolves with: a value or an error
value (loadMany never rejects as a whole once past the cache scan). -/
inductive Slot (Q V E : Type) where
  | value : V → Slot Q V E
  | err : BatchError Q V E → Slot Q V E

/-- Discriminator: does this slot hold a CacheError? -/
def Slot.isCacheErrSlot {Q V E : Type} : Slot Q V E → Bool
  | .err e => e.isCacheErr
  | _ => false

/-- Discriminator: does this slot hold a BatchFunctionError? -/
def Slot.isBatchFnSlot {Q V E : Type} : Slot Q V E → Bool
  | .err e => e.isBatchFnError
  | _ => false

/-- The cache-scan loop at the top of loadMany, over the already
normalized queries, with `i` the original index of the head.  Returns the
placeholder result slots, `queriesToFetch` fused with `queryIndexMap`
(normalized query and original index, in fetch order), and `cacheKeys`
(one derived key per original position).  A hit fills the slot; a miss
stores a NotFoundError placeholder and forwards; a throwing cache read
stores a CacheError placeholder and still forwards. -/
def loadManyScanGo {Q V E : Type} (cfg : Config Q V E) (store : StoreState V) :
    List Q → Nat →
      List (Slot Q V E) × List (Q × Nat) × List String
  | [], _ => ([], [], [])
  | q :: rest, i =>
      let key := cfg.hashFn (extractCacheKey cfg q)
      let r := loadManyScanGo cfg store rest (i + 1)
      match get cfg store key with
      | .ok (some v) => (.value v :: r.1, r.2.1, key :: r.2.2)
      | .ok none =>
          (.err (.notFoundError ("Key not found in cache: " ++ key)
              (.one q)) :: r.1,
           (q, i) :: r.2.1, key :: r.2.2)
      | .error e =>
          (.err (.cacheError
              ("Error getting value from cache for key " ++ key)
              (.one q) (.raw e)) :: r.1,
           (q, i) :: r.2.1, key :: r.2.2)

/-- The catch handler of loadMany around the batch-function call: every
forwarded position is overwritten with a BatchFunctionError wrapping the
caught cause and carrying that position's query. -/
def rejectForwarded {Q V E : Type} (cause : BatchError Q V E) :
    List (Q × Nat) → List (Slot Q V E) → List (Slot Q V E)
  | [], slots => slots
  | p :: rest, slots =>
      rejectForwarded cause rest
        (slots.set p.2 (.err (.batchFunctionError "Error in batchFunction"
          (.one p.1) (some cause))))

/-- The forEach of loadMany over the resolved outcome array, with `j` the
fetch-order index of the head.  `store0` is the store against which the
un-awaited setValue calls run their memory checks.  A value outcome is
assigned into its slot before setValue is even invoked; a failing write
only schedules a later overwrite of that slot with a CacheError, which
lands after loadMany has already resolved — those are accumulated in the
`late` component instead of the slots.  An outcome beyond the forwarded
queries finds no original index (the source then writes through an
undefined index and an undefined key, touching none of the real result
positions). -/
def applyBatchResults {Q V E : Type} (cfg : Config Q V E) (now : Nat)
    (store0 : List (String × V)) (cacheKeys : List String)
    (toFetch : List (Q × Nat)) :
    List (FetchOutcome Q V E) → Nat → List (Slot Q V E) → StoreState V →
      List (Nat × BatchError Q V E) →
      List (Slot Q V E) × StoreState V × List (Nat × BatchError Q V E)
  | [], _, slots, st, late => (slots, st, late)
  | r :: rest, j, slots, st, late =>
      match toFetch.get? j with
      | none => applyBatchResults cfg now store0 cacheKeys toFetch rest
          (j + 1) slots st late
      | some (q, i) =>
          let key := cacheKeys.getD i ""
          match r with
          | .err e =>
              applyBatchResults cfg now store0 cacheKeys toFetch rest (j + 1)
                (slots.set i (.err e)) st late
          | .nullValue =>
              applyBatchResults cfg now store0 cacheKeys toFetch rest (j + 1)
                (slots.set i (.err (.notFoundError ("Not found: " ++ key)
                  (.one q)))) st late
          | .value v =>
              match setValueChecked cfg now store0 st key v with
              | .ok st2 =>
                  applyBatchResults cfg now store0 cacheKeys toFetch rest
                    (j + 1) (slots.set i (.value v)) st2 late
              | .error se =>
                  applyBatchResults cfg now store0 cacheKeys toFetch rest
                    (j + 1) (slots.set i (.value v)) st
                    (late ++ [(i, .cacheError
                      ("Error setting value in cache for key " ++ key)
                      (.one q) se)])

/-- loadMany: normalize every query, scan the cache, and when at least one
query was forwarded invoke the batch function once on the forwarded
queries in order.  Returns the result array as the caller observes it
when the loadMany promise resolves, the committed store, the CacheError
slot overwrites that land only after resolution, and the fetch
invocations performed. -/
def loadMany {Q V E : Type} (cfg : Config Q V E)
    (fetch : List Q → FetchResult Q V E) (now : Nat) (store : StoreState V)
    (queries : List Q) :
    List (Slot Q V E) × StoreState V × List (Nat × BatchError Q V E) ×
      List (List Q) :=
  let normalizedQueries := queries.map cfg.queryNormalizer
  let scan := loadManyScanGo cfg store normalizedQueries 0
  let slots := scan.1
  let toFetch := scan.2.1
  let cacheKeys := scan.2.2
  if toFetch.isEmpty then (slots, store, [], [])
  else
    let fetchArg := toFetch.map (fun p => p.1)
    match fetch fetchArg with
    | .arr rs =>
        let r := applyBatchResults cfg now store.memoryStore cacheKeys
          toFetch rs 0 slots store []
        (r.1, r.2.1, r.2.2, [fetchArg])
    | .nonArray =>
        (rejectForwarded
          (.batchFunctionError "batchFunction must return an array"
            (.many fetchArg) none) toFetch slots,
         store, [], [fetchArg])
    | .reject e => (rejectForwarded e toFetch slots, store, [], [fetchArg])

/-- The settlement one waiter receives, as a function of nothing but its
own queue item and its own outcome slot (and the pre-flush store the
memory checks read).  That the demultiplexer acts pointwise like this is
the per-key isolation property. -/
def settleOne {Q V E : Type} (cfg : Config Q V E) (store0 : List (String × V))
    (item : QueueItem Q) : FetchOutcome Q V E → Settlement Q V E
  | .err e => .rejected e
  | .nullValue => .rejected (.notFoundError ("Not found: " ++ item.key)
      (.one item.originalQuery))
  | .value v =>
      if checkMemoryAvailability cfg store0 [(item.key, v)] then
        .resolved v
      else
        .rejected (.cacheError
          ("Error setting value in cache during batch for key " ++ item.key)
          (.one item.originalQuery)
          (.memoryLimitError
            ("Not enough memory to save data for key " ++ item.key)
            (.keyValue item.key v)))

/-- The pointwise settlement of a whole queue against a whole outcome
array: items beyond the array stay pending, outcomes beyond the queue are
dropped. -/
def pointwiseSettle {Q V E : Type} (cfg : Config Q V E)
    (store0 : List (String × V)) :
    List (QueueItem Q) → List (FetchOutcome Q V E) → List (Settlement Q V E)
  | [], _ => []
  | _ :: items, [] => .pending :: pointwiseSettle cfg store0 items []
  | item :: items, r :: rest =>
      settleOne cfg store0 item r :: pointwiseSettle cfg store0 items rest

/-! Concrete instances (queries are strings, values and raw errors are
naturals) used to exhibit counterexamples and to instantiate witnesses. -/

/-- A benign configuration: identity normalization and hashing, a size
estimator that always answers zero, well-behaved listeners. -/
def demoCfg : Config String Nat Nat :=
  { delay := 0, memoryLimitMB := 1024, expirationTime := 0,
    hashFn := fun q => q, queryNormalizer := fun q => q,
    cacheKeyProject := none, sizeofFn := fun _ => 0,
    onGetValue := fun _ _ => .ok () }

/-- The empty cache store. -/
def emptyStore : StoreState Nat :=
  { memoryStore := [], expirationTimers := [] }

/-- A store already holding the key k with value 42. -/
def preloadedStore : StoreState Nat :=
  { memoryStore := [("k", 42)], expirationTimers := [] }

/-- A configuration whose memory limit (1 MB) is below the estimated
size (2 MB) of any nonempty record, so every admission is refused. -/
def tinyCfg : Config String Nat Nat :=
  { demoCfg with memoryLimitMB := 1,
                 sizeofFn := fun l => if l.isEmpty then 0 else 2 * 1024 * 1024 }

/-- A configuration whose getValue listener throws (raw error 3) for the
key bad, making cache reads of that key reject. -/
def badCfg : Config String Nat Nat :=
  { demoCfg with
      onGetValue := fun k _ => if k == "bad" then .error 3 else .ok () }

/-- A configuration with a 10-tick expiration duration. -/
def expCfg : Config String Nat Nat := { demoCfg with expirationTime := 10 }

/-- The store produced by setValue expCfg 0 emptyStore k 5. -/
def expStore1 : StoreState Nat :=
  { memoryStore := [("k", 5)], expirationTimers := [("k", 10)] }

/-- The store produced by re-setting k to 7 at time 6 in expStore1. -/
def expStore2 : StoreState Nat :=
  { memoryStore := [("k", 7)], expirationTimers := [("k", 16)] }

/-- A batcher that is idle except that its cache already holds k ↦ 42. -/
def preloadedBatcher : BatcherState String Nat :=
  { queue := [], scheduled := false, pendingFlushes := 0,
    store := preloadedStore }

/-- An idle batcher: empty queue, nothing scheduled, empty cache. -/
def idleBatcher : BatcherState String Nat :=
  { queue := [], scheduled := false, pendingFlushes := 0, store := emptyStore }

/-- A batcher with two armed waiters for the queries a and b. -/
def twoWaiters : BatcherState String Nat :=
  { queue := [{ key := "a", originalQuery := "a" },
              { key := "b", originalQuery := "b" }],
    scheduled := true, pendingFlushes := 1, store := emptyStore }

/-- A batcher with one armed waiter for the query a. -/
def oneWaiter : BatcherState String Nat :=
  { queue := [{ key := "a", originalQuery := "a" }],
    scheduled := true, pendingFlushes := 1, store := emptyStore }

/-- A batcher holding three waiters for a, b, c over an empty cache. -/
def mixedBatcher : BatcherState String Nat :=
  { queue := [{ key := "a", originalQuery := "a" },
              { key := "b", originalQuery := "b" },
              { key := "c", originalQuery := "c" }],
    scheduled := true, pendingFlushes := 1, store := emptyStore }

/-- A batch function answering every request with the empty array — a
wrong-length (too short) but perfectly array-shaped result. -/
def fetchEmptyArr : List String → FetchResult String Nat Nat :=
  fun _ => .arr []

/-- A batch function resolving with a single value 5 regardless of how
many queries were sent. -/
def fetchOneValue : List String → FetchResult String Nat Nat :=
  fun _ => .arr [.value 5]

/-- A batch function whose single outcome is a plain (raw) error value. -/
def fetchRawErr : List String → FetchResult String Nat Nat :=
  fun _ => .arr [.err (.raw 7)]

/-- A batch function answering [value 1, raw error 7, value 3]. -/
def fetchMixed : List String → FetchResult String Nat Nat :=
  fun _ => .arr [.value 1, .err (.raw 7), .value 3]

/-- A batch function that rejects outright with raw error 9. -/
def fetchRejecting : List String → FetchResult String Nat Nat :=
  fun _ => .reject (.raw 9)

/-- A batch function resolving with a non-array value. -/
def fetchNonArray : List String → FetchResult String Nat Nat :=
  fun _ => .nonArray

/-! Helper lemmas about the association-list primitives. -/

theorem alistHas_iff {α : Type} (l : List (String × α)) (k : String) :
    alistHas l k = true ↔ ∃ p ∈ l, p.1 = k := by
  simp [alistHas, List.any_eq_true, beq_iff_eq]

theorem alistSet_key_val {α : Type} (l : List (String × α)) (k : String)
    (v : α) : ∀ p ∈ alistSet l k v, p.1 = k → p.2 = v := by
  intro p hp hk
  unfold alistSet at hp
  by_cases h : alistHas l k
  · rw [if_pos h] at hp
    obtain ⟨q, hq, heq⟩ := List.mem_map.mp hp
    by_cases hqk : q.1 = k
    · rw [if_pos (beq_iff_eq.mpr hqk)] at heq
      rw [← heq]
    · rw [if_neg (by simp [hqk])] at heq
      exact absurd (heq ▸ hk) hqk
  · rw [if_neg h] at hp
    rcases List.mem_append.mp hp with hin | hin
    · exact absurd (alistHas_iff l k |>.mpr ⟨p, hin, hk⟩) h
    · rw [List.mem_singleton.mp hin]

theorem alistHas_alistSet_self {α : Type} (l : List (String × α))
    (k : String) (v : α) : alistHas (alistSet l k v) k = true := by
  unfold alistSet
  by_cases h : alistHas l k
  · rw [if_pos h]
    obtain ⟨p, hp, hk⟩ := (alistHas_iff l k).mp h
    refine (alistHas_iff _ k).mpr ⟨(k, v), ?_, rfl⟩
    exact List.mem_map.mpr ⟨p, hp, by rw [if_pos (beq_iff_eq.mpr hk)]⟩
  · rw [if_neg h]
    exact (alistHas_iff _ k).mpr ⟨(k, v), List.mem_append_right _ (List.mem_singleton.mpr rfl), rfl⟩

/-! Helper lemmas about expiration-timer firing. -/

theorem has_fireDueTimers_of_notDue {V : Type} (st : StoreState V)
    (now : Nat) (k : String) (hks : alistHas st.memoryStore k = true)
    (htm : ∀ p ∈ st.expirationTimers, p.1 = k → now < p.2) :
    has (fireDueTimers st now) k = true := by
  obtain ⟨p, hp, hk⟩ := (alistHas_iff _ k).mp hks
  unfold has fireDueTimers
  refine (alistHas_iff _ k).mpr ⟨p, List.mem_filter.mpr ⟨hp, ?_⟩, hk⟩
  simp only [Bool.not_eq_true', List.any_eq_false, beq_eq_false_iff_ne, ne_eq]
  intro d hd
  obtain ⟨hdm, hdle⟩ := List.mem_filter.mp hd
  simp only [decide_eq_true_eq] at hdle
  intro hdp
  have := htm d hdm ((beq_iff_eq.mp hdp).trans hk)
  omega

theorem has_fireDueTimers_of_due {V : Type} (st : StoreState V)
    (now : Nat) (k : String)
    (hdue : ∃ p ∈ st.expirationTimers, p.1 = k ∧ p.2 ≤ now) :
    has (fireDueTimers st now) k = false := by
  obtain ⟨p, hp, hk, hle⟩ := hdue
  rcases Bool.eq_false_or_eq_true (has (fireDueTimers st now) k) with hres | hres
  case inr => exact hres
  case inl =>
    exfalso
    unfold has fireDueTimers at hres
    obtain ⟨q, hq, hqk⟩ := (alistHas_iff _ k).mp hres
    obtain ⟨hqm, hqpred⟩ := List.mem_filter.mp hq
    simp only [Bool.not_eq_true', List.any_eq_false] at hqpred
    refine hqpred p (List.mem_filter.mpr ⟨hp, by simp [hle]⟩) ?_
    simp [hk, hqk]

/-! Helper lemmas about setValue. -/

theorem setValue_ok_elim {Q V E : Type} (cfg : Config Q V E) (now : Nat)
    (st : StoreState V) (k : String) (v : V) (st1 : StoreState V)
    (h : setValue (E := E) cfg now st k v = .ok st1) :
    st1.memoryStore = alistSet st.memoryStore k v ∧
    st1.expirationTimers = setExpiration cfg now st.expirationTimers k := by
  unfold setValue setValueChecked at h
  by_cases hc : checkMemoryAvailability cfg st.memoryStore [(k, v)]
  · rw [if_pos hc] at h
    injection h with h
    rw [← h]
    exact ⟨rfl, rfl⟩
  · rw [if_neg hc] at h
    exact absurd h (by simp)

/-- After a successful setValue at time tset under a positive expiration
duration, the key is observable exactly until tset plus that duration:
the armed timer is the sole authority on its lifetime. -/
theorem setValue_expiry_window {Q V E : Type} (cfg : Config Q V E)
    (tset : Nat) (st : StoreState V) (k : String) (v : V)
    (st1 : StoreState V) (hT : 0 < cfg.expirationTime)
    (h : setValue (E := E) cfg tset st k v = .ok st1) :
    (∀ t, t < tset + cfg.expirationTime →
      has (fireDueTimers st1 t) k = true) ∧
    (∀ t, tset + cfg.expirationTime ≤ t →
      has (fireDueTimers st1 t) k = false) := by
  obtain ⟨hm, ht⟩ := setValue_ok_elim cfg tset st k v st1 h
  constructor
  · intro t hlt
    refine has_fireDueTimers_of_notDue st1 t k ?_ ?_
    · rw [hm]; exact alistHas_alistSet_self _ _ _
    · intro p hp hk
      rw [ht, setExpiration, if_pos hT] at hp
      have := alistSet_key_val _ _ _ p hp hk
      omega
  · intro t hge
    refine has_fireDueTimers_of_due st1 t k ?_
    rw [ht, setExpiration, if_pos hT]
    obtain ⟨p, hp, hk⟩ := (alistHas_iff _ k).mp
      (alistHas_alistSet_self st.expirationTimers k
        (tset + cfg.expirationTime))
    refine ⟨p, hp, hk, ?_⟩
    rw [alistSet_key_val _ _ _ p hp hk]
    exact hge

/-! Evaluation lemmas for the demo configurations: their size estimators
and limits make every memory check reduce to a fixed rational comparison,
which norm_num settles (kernel reduction cannot evaluate Rat division). -/

theorem demoCfg_check (s n : List (String × Nat)) :
    checkMemoryAvailability demoCfg s n = true := by
  norm_num [checkMemoryAvailability, demoCfg]

theorem expCfg_check (s n : List (String × Nat)) :
    checkMemoryAvailability expCfg s n = true := by
  norm_num [checkMemoryAvailability, expCfg, demoCfg]

theorem badCfg_check (s n : List (String × Nat)) :
    checkMemoryAvailability badCfg s n = true := by
  norm_num [checkMemoryAvailability, badCfg, demoCfg]

theorem tinyCfg_check (s : List (String × Nat)) (k : String) (v : Nat) :
    checkMemoryAvailability tinyCfg s [(k, v)] = false := by
  by_cases hs : s = [] <;>
    norm_num [checkMemoryAvailability, tinyCfg, demoCfg, hs]

/-- C6: for every store state and every setValue call whose projected
total size (current store size plus the estimated size of the new entry)
exceeds the configured memory limit, setValue fails with a
MemoryLimitError and the prior store contents are untouched — nothing is
evicted, only the new write is refused. -/
theorem claim6_memory_limit_refusal {Q V E : Type} (cfg : Config Q V E)
    (now : Nat) (st : StoreState V) (key : String) (v : V)
    (hlim : cfg.memoryLimitMB <
      (cfg.sizeofFn st.memoryStore + cfg.sizeofFn [(key, v)]) / 1024 / 1024) :
    setValue (E := E) cfg now st key v = .error (.memoryLimitError
      ("Not enough memory to save data for key " ++ key)
      (.keyValue key v)) ∧
    setValueRun (E := E) cfg now st key v = st := by
  have hchk : checkMemoryAvailability cfg st.memoryStore [(key, v)] = false := by
    simp only [checkMemoryAvailability, decide_eq_false_iff_not, not_le]
    exact hlim
  refine ⟨?_, ?_⟩
  · simp [setValue, setValueChecked, hchk]
  · simp [setValueRun, setValue, setValueChecked, hchk]

/-- Witness for C6 at a concrete input: a 1 MB limit, an empty store, and
an entry estimated at 2 MB. -/
theorem claim6_witness :
    tinyCfg.memoryLimitMB <
      (tinyCfg.sizeofFn emptyStore.memoryStore +
        tinyCfg.sizeofFn [("k", 5)]) / 1024 / 1024 ∧
    (setValue (E := Nat) tinyCfg 0 emptyStore "k" 5 = .error (.memoryLimitError
        ("Not enough memory to save data for key " ++ "k")
        (.keyValue "k" 5)) ∧
      setValueRun (E := Nat) tinyCfg 0 emptyStore "k" 5 = emptyStore) :=
  have hlim : tinyCfg.memoryLimitMB <
      (tinyCfg.sizeofFn emptyStore.memoryStore +
        tinyCfg.sizeofFn [("k", 5)]) / 1024 / 1024 := by
    norm_num [tinyCfg, demoCfg, emptyStore]
  ⟨hlim, claim6_memory_limit_refusal tinyCfg 0 emptyStore "k" 5 hlim⟩

/-- C7: with a positive expiration duration T, a key is observable
immediately after setValue and unobservable once T has elapsed, and
re-setting the key before expiry cancels the old timer and arms a fresh
one, so the key stays observable until T after the latest setValue and is
gone afterwards (last write wins on TTL). -/
theorem claim7_expiration_resets {Q V E : Type} (cfg : Config Q V E)
    (st st1 st2 : StoreState V) (k : String) (v v2 : V) (t0 t1 : Nat)
    (hT : 0 < cfg.expirationTime)
    (h1 : setValue (E := E) cfg t0 st k v = .ok st1)
    (_ht1 : t1 < t0 + cfg.expirationTime)
    (h2 : setValue (E := E) cfg t1 (fireDueTimers st1 t1) k v2 = .ok st2) :
    has (fireDueTimers st1 t0) k = true ∧
    (∀ t, t0 + cfg.expirationTime ≤ t → has (fireDueTimers st1 t) k = false) ∧
    (∀ t, t < t1 + cfg.expirationTime → has (fireDueTimers st2 t) k = true) ∧
    (∀ t, t1 + cfg.expirationTime ≤ t → has (fireDueTimers st2 t) k = false) := by
  obtain ⟨hw1a, hw1b⟩ := setValue_expiry_window cfg t0 st k v st1 hT h1
  obtain ⟨hw2a, hw2b⟩ :=
    setValue_expiry_window cfg t1 (fireDueTimers st1 t1) k v2 st2 hT h2
  exact ⟨hw1a t0 (by omega), hw1b, hw2a, hw2b⟩

/-- Witness for C7: T = 10, set k at t = 0, re-set at t = 6; k is present
at t = 0 and at t = 11 (past the first deadline) and absent at t = 17. -/
theorem claim7_witness :
    0 < expCfg.expirationTime ∧
    setValue (E := Nat) expCfg 0 emptyStore "k" 5 = .ok expStore1 ∧
    (6 : Nat) < 0 + expCfg.expirationTime ∧
    setValue (E := Nat) expCfg 6 (fireDueTimers expStore1 6) "k" 7 =
      .ok expStore2 ∧
    has (fireDueTimers expStore1 0) "k" = true ∧
    has (fireDueTimers expStore2 11) "k" = true ∧
    has (fireDueTimers expStore2 17) "k" = false := by
  have h1 : setValue (E := Nat) expCfg 0 emptyStore "k" 5 = .ok expStore1 := by
    unfold setValue setValueChecked
    rw [expCfg_check]
    rfl
  have h2 : setValue (E := Nat) expCfg 6 (fireDueTimers expStore1 6) "k" 7 =
      .ok expStore2 := by
    unfold setValue setValueChecked
    rw [expCfg_check]
    rfl
  have h := claim7_expiration_resets expCfg emptyStore expStore1 expStore2
    "k" 5 7 0 6 (by decide) h1 (by decide) h2
  exact ⟨by decide, h1, by decide, h2, h.1,
    h.2.2.1 11 (by decide), h.2.2.2 17 (by decide)⟩

/-! Helper lemmas for the coalescing claim. -/

theorem scheduleBatch_store {Q V : Type} (st : BatcherState Q V) :
    (scheduleBatch st).store = st.store := by
  unfold scheduleBatch
  split <;> rfl

/-- A burst of cache-missing load calls appends one waiter per query to
the queue in call order, leaves the store alone, and arms exactly one
flush callback when none was armed before. -/
theorem loadBurst_miss {Q V E : Type} (cfg : Config Q V E) :
    ∀ (qs : List Q) (st : BatcherState Q V),
      (∀ q ∈ qs, get cfg st.store (keyOf cfg q) = .ok none) →
      loadBurst cfg st qs =
        { queue := st.queue ++ qs.map (fun q =>
            { key := keyOf cfg q, originalQuery := cfg.queryNormalizer q }),
          scheduled := st.scheduled || !qs.isEmpty,
          pendingFlushes := st.pendingFlushes +
            (if st.scheduled || qs.isEmpty then 0 else 1),
          store := st.store } := by
  intro qs
  induction qs with
  | nil => intro st h; simp [loadBurst]
  | cons q qs ih =>
      intro st h
      have hq := h q (List.mem_cons_self q qs)
      simp only [keyOf] at hq
      have hstep : loadBurst cfg st (q :: qs) =
          loadBurst cfg (scheduleBatch
            { st with queue := st.queue ++
                [{ key := keyOf cfg q,
                   originalQuery := cfg.queryNormalizer q }] }) qs := by
        simp [loadBurst, load, hq, keyOf]
      rw [hstep]
      have hrest : ∀ x ∈ qs,
          get cfg (scheduleBatch
            { st with queue := st.queue ++
                [{ key := keyOf cfg q,
                   originalQuery := cfg.queryNormalizer q }] }).store
            (keyOf cfg x) = .ok none := by
        rw [scheduleBatch_store]
        exact fun x hx => h x (List.mem_cons_of_mem q hx)
      rw [ih _ hrest]
      unfold scheduleBatch
      by_cases hs : st.scheduled <;> simp [hs]

/-- C2: N load calls issued in one scheduling turn, all cache misses,
arm exactly one flush, and when that flush fires the batch function is
invoked exactly once with the N normalized queries in call order. -/
theorem claim2_coalescing {Q V E : Type} (cfg : Config Q V E)
    (fetch : List Q → FetchResult Q V E) (now : Nat)
    (st0 : BatcherState Q V) (qs : List Q)
    (hq0 : st0.queue = []) (hs0 : st0.scheduled = false) (hne : qs ≠ [])
    (hmiss : ∀ q ∈ qs, get cfg st0.store (keyOf cfg q) = .ok none) :
    (loadBurst cfg st0 qs).scheduled = true ∧
    (loadBurst cfg st0 qs).pendingFlushes = st0.pendingFlushes + 1 ∧
    (executeBatch cfg fetch now (loadBurst cfg st0 qs)).2.2 =
      [qs.map cfg.queryNormalizer] := by
  have hb := loadBurst_miss cfg qs st0 hmiss
  have hemp : qs.isEmpty = false := by
    cases qs with
    | nil => exact absurd rfl hne
    | cons a l => rfl
  refine ⟨?_, ?_, ?_⟩
  · rw [hb]; simp [hs0, hemp]
  · rw [hb]; simp [hs0, hemp]
  · rw [hb]
    simp [executeBatch, hq0, List.map_map, Function.comp]

/-- Witness for C2: two loads for a and b from an idle batcher arm one
flush whose single fetch invocation carries both queries in order. -/
theorem claim2_witness :
    idleBatcher.queue = [] ∧ idleBatcher.scheduled = false ∧
    (["a", "b"] : List String) ≠ [] ∧
    (∀ q ∈ (["a", "b"] : List String),
      get demoCfg idleBatcher.store (keyOf demoCfg q) = .ok none) ∧
    ((loadBurst demoCfg idleBatcher ["a", "b"]).scheduled = true ∧
      (loadBurst demoCfg idleBatcher ["a", "b"]).pendingFlushes =
        idleBatcher.pendingFlushes + 1 ∧
      (executeBatch demoCfg fetchMixed 0
          (loadBurst demoCfg idleBatcher ["a", "b"])).2.2 =
        [List.map demoCfg.queryNormalizer ["a", "b"]]) :=
  have hmiss : ∀ q ∈ (["a", "b"] : List String),
      get demoCfg idleBatcher.store (keyOf demoCfg q) = .ok none := by
    intro q hq
    simp only [List.mem_cons, List.not_mem_nil, or_false] at hq
    rcases hq with rfl | rfl <;> rfl
  ⟨rfl, rfl, by decide, hmiss,
    claim2_coalescing demoCfg fetchMixed 0 idleBatcher ["a", "b"]
      rfl rfl (by decide) hmiss⟩

/-! Structural lemmas about the loadMany cache scan. -/

theorem scan_toFetch_mem {Q V E : Type} (cfg : Config Q V E)
    (store : StoreState V) :
    ∀ (qs : List Q) (i0 : Nat) (p : Q × Nat),
      p ∈ (loadManyScanGo (E := E) cfg store qs i0).2.1 →
      i0 ≤ p.2 ∧ p.2 < i0 + qs.length ∧
      qs.get? (p.2 - i0) = some p.1 ∧
      ∀ v : V, get cfg store (cfg.hashFn (extractCacheKey cfg p.1)) ≠
        .ok (some v) := by
  intro qs
  induction qs with
  | nil => intro i0 p hp; simp [loadManyScanGo] at hp
  | cons q rest ih =>
      intro i0 p hp
      cases hE : get cfg store (cfg.hashFn (extractCacheKey cfg q)) with
      | error e =>
          simp only [loadManyScanGo, hE] at hp
          rcases List.mem_cons.mp hp with rfl | hp
          · refine ⟨Nat.le_refl _, by simp only [List.length_cons]; omega, ?_, ?_⟩
            · simp
            · intro v; rw [hE]; simp
          · obtain ⟨h1, h2, h3, h4⟩ := ih (i0 + 1) p hp
            refine ⟨by omega, by simp only [List.length_cons]; omega, ?_, h4⟩
            have hidx : p.2 - i0 = (p.2 - (i0 + 1)) + 1 := by omega
            rw [hidx, List.get?_cons_succ]
            exact h3
      | ok ov =>
          cases ov with
          | none =>
              simp only [loadManyScanGo, hE] at hp
              rcases List.mem_cons.mp hp with rfl | hp
              · refine ⟨Nat.le_refl _, by simp only [List.length_cons]; omega, ?_, ?_⟩
                · simp
                · intro v; rw [hE]; simp
              · obtain ⟨h1, h2, h3, h4⟩ := ih (i0 + 1) p hp
                refine ⟨by omega, by simp only [List.length_cons]; omega, ?_, h4⟩
                have hidx : p.2 - i0 = (p.2 - (i0 + 1)) + 1 := by omega
                rw [hidx, List.get?_cons_succ]
                exact h3
          | some v =>
              simp only [loadManyScanGo, hE] at hp
              obtain ⟨h1, h2, h3, h4⟩ := ih (i0 + 1) p hp
              refine ⟨by omega, by simp only [List.length_cons]; omega, ?_, h4⟩
              have hidx : p.2 - i0 = (p.2 - (i0 + 1)) + 1 := by omega
              rw [hidx, List.get?_cons_succ]
              exact h3

theorem scan_slots_hit {Q V E : Type} (cfg : Config Q V E)
    (store : StoreState V) :
    ∀ (qs : List Q) (i0 i : Nat) (q : Q) (v : V),
      qs.get? i = some q →
      get cfg store (cfg.hashFn (extractCacheKey cfg q)) = .ok (some v) →
      (loadManyScanGo (E := E) cfg store qs i0).1.get? i =
        some (.value v) := by
  intro qs
  induction qs with
  | nil => intro i0 i q v hq _; simp at hq
  | cons q0 rest ih =>
      intro i0 i q v hq hget
      cases i with
      | zero =>
          simp only [List.get?_cons_zero, Option.some.injEq] at hq
          subst hq
          simp only [loadManyScanGo, hget, List.get?_cons_zero]
      | succ n =>
          rw [List.get?_cons_succ] at hq
          have htail := ih (i0 + 1) n q v hq hget
          cases hE : get cfg store (cfg.hashFn (extractCacheKey cfg q0)) with
          | error e => simp only [loadManyScanGo, hE, List.get?_cons_succ]
                       exact htail
          | ok ov =>
              cases ov with
              | none => simp only [loadManyScanGo, hE, List.get?_cons_succ]
                        exact htail
              | some w => simp only [loadManyScanGo, hE, List.get?_cons_succ]
                          exact htail

theorem scan_slots_length {Q V E : Type} (cfg : Config Q V E)
    (store : StoreState V) :
    ∀ (qs : List Q) (i0 : Nat),
      (loadManyScanGo (E := E) cfg store qs i0).1.length = qs.length := by
  intro qs
  induction qs with
  | nil => intro i0; simp [loadManyScanGo]
  | cons q rest ih =>
      intro i0
      cases hE : get cfg store (cfg.hashFn (extractCacheKey cfg q)) with
      | error e => simp [loadManyScanGo, hE, ih]
      | ok ov => cases ov <;> simp [loadManyScanGo, hE, ih]

/-- Every slot index overwritten by the batch-result demultiplexer comes
from a forwarded entry; a position none of them targets keeps its
scan-time content. -/
theorem applyBR_preserve {Q V E : Type} (cfg : Config Q V E) (now : Nat)
    (store0 : List (String × V)) (cacheKeys : List String)
    (toFetch : List (Q × Nat)) :
    ∀ (rs : List (FetchOutcome Q V E)) (j : Nat) (slots : List (Slot Q V E))
      (st : StoreState V) (late : List (Nat × BatchError Q V E)) (i : Nat),
      (∀ jj p, toFetch.get? jj = some p → j ≤ jj → p.2 ≠ i) →
      (applyBatchResults cfg now store0 cacheKeys toFetch rs j slots st
        late).1.get? i = slots.get? i := by
  intro rs
  induction rs with
  | nil => intro j slots st late i _; simp [applyBatchResults]
  | cons r rest ih =>
      intro j slots st late i hni
      have hstep : ∀ jj p, toFetch.get? jj = some p → j + 1 ≤ jj → p.2 ≠ i :=
        fun jj p hjj hle => hni jj p hjj (by omega)
      cases hj : toFetch.get? j with
      | none =>
          simp only [applyBatchResults, hj]
          exact ih (j + 1) slots st late i hstep
      | some p =>
          obtain ⟨q, i2⟩ := p
          have hne : i2 ≠ i := hni j (q, i2) hj (Nat.le_refl j)
          cases r with
          | err e =>
              simp only [applyBatchResults, hj]
              rw [ih (j + 1) _ st late i hstep]
              exact List.get?_set_ne _ _ hne
          | nullValue =>
              simp only [applyBatchResults, hj]
              rw [ih (j + 1) _ st late i hstep]
              exact List.get?_set_ne _ _ hne
          | value v =>
              simp only [applyBatchResults, hj]
              cases hsv : setValueChecked (E := E) cfg now store0 st
                  (cacheKeys.getD i2 "") v with
              | ok st2 =>
                  simp only [hsv]
                  rw [ih (j + 1) _ st2 late i hstep]
                  exact List.get?_set_ne _ _ hne
              | error se =>
                  simp only [hsv]
                  rw [ih (j + 1) _ st _ i hstep]
                  exact List.get?_set_ne _ _ hne

/-- The loadMany catch handler only touches forwarded positions. -/
theorem rejectForwarded_preserve {Q V E : Type} (cause : BatchError Q V E) :
    ∀ (toFetch : List (Q × Nat)) (slots : List (Slot Q V E)) (i : Nat),
      (∀ p ∈ toFetch, p.2 ≠ i) →
      (rejectForwarded cause toFetch slots).get? i = slots.get? i := by
  intro toFetch
  induction toFetch with
  | nil => intro slots i _; simp [rejectForwarded]
  | cons p rest ih =>
      intro slots i hni
      simp only [rejectForwarded]
      rw [ih _ i (fun x hx => hni x (List.mem_cons_of_mem p hx))]
      exact List.get?_set_ne _ _ (hni p (List.mem_cons_self p rest))

/-- C3: a key whose value is cached is served from the cache: load
returns the cached value with the batcher state untouched (nothing
enqueued, no flush armed), and in loadMany the corresponding position is
filled from the cache while the normalized query is never part of any
batch-function invocation of that call. -/
theorem claim3_cache_short_circuit {Q V E : Type} (cfg : Config Q V E)
    (fetch : List Q → FetchResult Q V E) (now : Nat)
    (st : BatcherState Q V) (q : Q) (v : V)
    (hget : get cfg st.store (keyOf cfg q) = .ok (some v))
    (queries : List Q) (i : Nat) (hq : queries.get? i = some q) :
    load cfg st q = (.hit v, st) ∧
    (loadMany cfg fetch now st.store queries).1.get? i = some (.value v) ∧
    ∀ call ∈ (loadMany cfg fetch now st.store queries).2.2.2,
      cfg.queryNormalizer q ∉ call := by
  have hget2 : get cfg st.store
      (cfg.hashFn (extractCacheKey cfg (cfg.queryNormalizer q))) =
      .ok (some v) := hget
  have hnq : (queries.map cfg.queryNormalizer).get? i =
      some (cfg.queryNormalizer q) := by
    rw [List.get?_map, hq]; rfl
  have hslot := scan_slots_hit cfg st.store (queries.map cfg.queryNormalizer)
    0 i (cfg.queryNormalizer q) v hnq hget2
  have htarget : ∀ p ∈ (loadManyScanGo (E := E) cfg st.store
      (queries.map cfg.queryNormalizer) 0).2.1, p.2 ≠ i := by
    intro p hp hpi
    obtain ⟨_, _, h3, h4⟩ := scan_toFetch_mem cfg st.store _ 0 p hp
    rw [hpi] at h3
    simp only [Nat.sub_zero] at h3
    rw [hnq] at h3
    have hpq : cfg.queryNormalizer q = p.1 := Option.some.inj h3
    exact h4 v (by rw [← hpq]; exact hget2)
  have hnofwd : ∀ p ∈ (loadManyScanGo (E := E) cfg st.store
      (queries.map cfg.queryNormalizer) 0).2.1,
      p.1 ≠ cfg.queryNormalizer q := by
    intro p hp hpq
    obtain ⟨_, _, _, h4⟩ := scan_toFetch_mem cfg st.store _ 0 p hp
    rw [hpq] at h4
    exact h4 v hget2
  refine ⟨?_, ?_, ?_⟩
  · simp only [load, hget2]
  · simp only [loadMany]
    split
    · exact hslot
    · split
      · rename_i rs hrs
        rw [applyBR_preserve]
        · exact hslot
        · intro jj p hjj _
          exact htarget p (List.get?_mem hjj)
      · rw [rejectForwarded_preserve]
        · exact hslot
        · exact htarget
      · rw [rejectForwarded_preserve]
        · exact hslot
        · exact htarget
  · simp only [loadMany]
    split
    · intro call hcall
      simp at hcall
    · split <;>
      · intro call hcall
        rw [List.mem_singleton.mp hcall]
        intro hmem
        obtain ⟨p, hp, hpq⟩ := List.mem_map.mp hmem
        exact hnofwd p hp hpq

/-- Witness for C3: with k ↦ 42 cached, load returns 42 untouched and
loadMany ["x", "k"] serves position 1 from the cache without forwarding
the query k. -/
theorem claim3_witness :
    get demoCfg preloadedBatcher.store (keyOf demoCfg "k") = .ok (some 42) ∧
    (["x", "k"] : List String).get? 1 = some "k" ∧
    (load demoCfg preloadedBatcher "k" = (.hit 42, preloadedBatcher) ∧
      (loadMany demoCfg fetchOneValue 0 preloadedBatcher.store
          ["x", "k"]).1.get? 1 = some (.value 42) ∧
      ∀ call ∈ (loadMany demoCfg fetchOneValue 0 preloadedBatcher.store
          ["x", "k"]).2.2.2, demoCfg.queryNormalizer "k" ∉ call) :=
  ⟨rfl, rfl, claim3_cache_short_circuit demoCfg fetchOneValue 0
    preloadedBatcher "k" 42 rfl ["x", "k"] 1 rfl⟩

/-! The demultiplexer settles waiters pointwise: each settlement depends
only on that waiter and its own outcome (plus the pre-flush store the
memory checks read), never on sibling outcomes. -/

theorem demux_settlements {Q V E : Type} (cfg : Config Q V E) (now : Nat)
    (store0 : List (String × V)) :
    ∀ (items : List (QueueItem Q)) (rs : List (FetchOutcome Q V E))
      (st : StoreState V),
      (demux cfg now store0 items rs st).2 =
        pointwiseSettle cfg store0 items rs := by
  intro items
  induction items with
  | nil => intro rs st; cases rs <;> simp [demux, pointwiseSettle]
  | cons item rest ih =>
      intro rs st
      cases rs with
      | nil => simp [demux, pointwiseSettle, ih]
      | cons r rtail =>
          cases r with
          | err e => simp [demux, pointwiseSettle, settleOne, ih]
          | nullValue => simp [demux, pointwiseSettle, settleOne, ih]
          | value v =>
              by_cases hc : checkMemoryAvailability cfg store0 [(item.key, v)]
              · simp [demux, pointwiseSettle, settleOne, setValueChecked,
                  hc, ih]
              · simp [demux, pointwiseSettle, settleOne, setValueChecked,
                  hc, ih]

theorem pointwiseSettle_get? {Q V E : Type} (cfg : Config Q V E)
    (store0 : List (String × V)) :
    ∀ (items : List (QueueItem Q)) (rs : List (FetchOutcome Q V E))
      (i : Nat) (item : QueueItem Q), items.get? i = some item →
      (pointwiseSettle cfg store0 items rs).get? i =
        some (match rs.get? i with
              | some r => settleOne cfg store0 item r
              | none => .pending) := by
  intro items
  induction items with
  | nil => intro rs i item h; simp at h
  | cons it rest ih =>
      intro rs i item h
      cases i with
      | zero =>
          simp only [List.get?_cons_zero, Option.some.injEq] at h
          subst h
          cases rs with
          | nil => simp [pointwiseSettle]
          | cons r rtail => simp [pointwiseSettle]
      | succ n =>
          rw [List.get?_cons_succ] at h
          cases rs with
          | nil =>
              simp only [pointwiseSettle, List.get?_cons_succ]
              rw [ih [] n item h]
              simp
          | cons r rtail =>
              simp only [pointwiseSettle, List.get?_cons_succ]
              rw [ih rtail n item h]

/-- When the batch function resolves with an array, the executeBatch
settlements are the pointwise ones. -/
theorem executeBatch_arr {Q V E : Type} (cfg : Config Q V E)
    (fetch : List Q → FetchResult Q V E) (now : Nat)
    (st : BatcherState Q V) (rs : List (FetchOutcome Q V E))
    (hfetch : fetch (st.queue.map (fun item => item.originalQuery)) =
      .arr rs) :
    (executeBatch cfg fetch now st).2.1 =
      pointwiseSettle cfg st.store.memoryStore st.queue rs := by
  simp only [executeBatch, hfetch]
  exact demux_settlements cfg now st.store.memoryStore st.queue rs _

/-- C1: a fetch collaborator answering [value, error, value] for three
cache-missed queries affects only the middle position: loadMany returns
[value, that error, value], and in the load path the two sibling waiters
of the same batch resolve with their own values while the middle waiter
alone is rejected with the error. -/
theorem claim1_per_key_isolation {Q V E : Type} (cfg : Config Q V E)
    (fetch : List Q → FetchResult Q V E) (now : Nat)
    (st : BatcherState Q V) (q1 q2 q3 : Q) (v1 v3 : V)
    (e : BatchError Q V E)
    (hqueue : st.queue =
      [{ key := keyOf cfg q1, originalQuery := cfg.queryNormalizer q1 },
       { key := keyOf cfg q2, originalQuery := cfg.queryNormalizer q2 },
       { key := keyOf cfg q3, originalQuery := cfg.queryNormalizer q3 }])
    (h1 : get cfg st.store (keyOf cfg q1) = .ok none)
    (h2 : get cfg st.store (keyOf cfg q2) = .ok none)
    (h3 : get cfg st.store (keyOf cfg q3) = .ok none)
    (hfetch : fetch ([q1, q2, q3].map cfg.queryNormalizer) =
      .arr [.value v1, .err e, .value v3])
    (hc1 : checkMemoryAvailability cfg st.store.memoryStore
      [(keyOf cfg q1, v1)] = true)
    (hc3 : checkMemoryAvailability cfg st.store.memoryStore
      [(keyOf cfg q3, v3)] = true) :
    (loadMany cfg fetch now st.store [q1, q2, q3]).1 =
      [.value v1, .err e, .value v3] ∧
    (executeBatch cfg fetch now st).2.1 =
      [.resolved v1, .rejected e, .resolved v3] := by
  simp only [keyOf] at h1 h2 h3 hc1 hc3
  constructor
  · simp only [loadMany, loadManyScanGo, List.map_cons, List.map_nil,
      h1, h2, h3]
    simp only [List.map_cons, List.map_nil] at hfetch
    simp [hfetch, applyBatchResults, setValueChecked, hc1, hc3]
  · have hfetch2 : fetch (st.queue.map (fun item => item.originalQuery)) =
        .arr [.value v1, .err e, .value v3] := by
      rw [hqueue]
      simpa using hfetch
    rw [executeBatch_arr cfg fetch now st _ hfetch2, hqueue]
    simp [pointwiseSettle, settleOne, keyOf, hc1, hc3]

/-- Witness for C1 at the concrete batch a, b, c against fetchMixed. -/
theorem claim1_witness :
    mixedBatcher.queue =
      [{ key := keyOf demoCfg "a", originalQuery :=
          demoCfg.queryNormalizer "a" },
       { key := keyOf demoCfg "b", originalQuery :=
          demoCfg.queryNormalizer "b" },
       { key := keyOf demoCfg "c", originalQuery :=
          demoCfg.queryNormalizer "c" }] ∧
    get demoCfg mixedBatcher.store (keyOf demoCfg "a") = .ok none ∧
    fetchMixed (["a", "b", "c"].map demoCfg.queryNormalizer) =
      .arr [.value 1, .err (.raw 7), .value 3] ∧
    ((loadMany demoCfg fetchMixed 0 mixedBatcher.store ["a", "b", "c"]).1 =
        [.value 1, .err (.raw 7), .value 3] ∧
      (executeBatch demoCfg fetchMixed 0 mixedBatcher).2.1 =
        [.resolved 1, .rejected (.raw 7), .resolved 3]) :=
  ⟨rfl, rfl, rfl,
    claim1_per_key_isolation demoCfg fetchMixed 0 mixedBatcher "a" "b" "c"
      1 3 (.raw 7) rfl rfl rfl rfl rfl
      (demoCfg_check _ _) (demoCfg_check _ _)⟩

/-! Positional lemmas for the loadMany catch handler. -/

theorem rejectForwarded_length {Q V E : Type} (cause : BatchError Q V E) :
    ∀ (toFetch : List (Q × Nat)) (slots : List (Slot Q V E)),
      (rejectForwarded cause toFetch slots).length = slots.length := by
  intro toFetch
  induction toFetch with
  | nil => intro slots; simp [rejectForwarded]
  | cons p rest ih =>
      intro slots
      simp [rejectForwarded, ih]

theorem scan_toFetch_sorted {Q V E : Type} (cfg : Config Q V E)
    (store : StoreState V) :
    ∀ (qs : List Q) (i0 : Nat),
      List.Pairwise (fun a b => a.2 < b.2)
        ((loadManyScanGo (E := E) cfg store qs i0).2.1) := by
  intro qs
  induction qs with
  | nil => intro i0; simp [loadManyScanGo]
  | cons q rest ih =>
      intro i0
      have hbound : ∀ p ∈ (loadManyScanGo (E := E) cfg store rest
          (i0 + 1)).2.1, i0 < p.2 := by
        intro p hp
        have := (scan_toFetch_mem cfg store rest (i0 + 1) p hp).1
        omega
      cases hE : get cfg store (cfg.hashFn (extractCacheKey cfg q)) with
      | error e =>
          simp only [loadManyScanGo, hE]
          exact List.Pairwise.cons (fun p hp => hbound p hp) (ih (i0 + 1))
      | ok ov =>
          cases ov with
          | none =>
              simp only [loadManyScanGo, hE]
              exact List.Pairwise.cons (fun p hp => hbound p hp) (ih (i0 + 1))
          | some v =>
              simp only [loadManyScanGo, hE]
              exact ih (i0 + 1)

theorem rejectForwarded_get? {Q V E : Type} (cause : BatchError Q V E) :
    ∀ (toFetch : List (Q × Nat)) (slots : List (Slot Q V E)) (jj : Nat)
      (p : Q × Nat),
      toFetch.get? jj = some p →
      List.Pairwise (fun a b => a.2 < b.2) toFetch →
      p.2 < slots.length →
      (rejectForwarded cause toFetch slots).get? p.2 =
        some (.err (.batchFunctionError "Error in batchFunction"
          (.one p.1) (some cause))) := by
  intro toFetch
  induction toFetch with
  | nil => intro slots jj p h _ _; simp at h
  | cons p0 rest ih =>
      intro slots jj p h hpair hlt
      obtain ⟨hhead, htail⟩ := List.pairwise_cons.mp hpair
      cases jj with
      | zero =>
          simp only [List.get?_cons_zero, Option.some.injEq] at h
          obtain rfl : p0 = p := h
          simp only [rejectForwarded]
          rw [rejectForwarded_preserve cause rest _ p0.2
            (fun x hx => Nat.ne_of_gt (hhead x hx))]
          exact List.get?_set_eq_of_lt _ hlt
      | succ n =>
          rw [List.get?_cons_succ] at h
          simp only [rejectForwarded]
          refine ih _ n p h htail ?_
          rw [List.length_set]
          exact hlt

/-- C5: a batch-function rejection fails the whole batch uniformly: every
executeBatch waiter is rejected with a BatchFunctionError wrapping the
thrown cause (store untouched), and loadMany still resolves with a
full-length result array whose every forwarded position carries that
BatchFunctionError (the store untouched as well). -/
theorem claim5_total_rejection {Q V E : Type} (cfg : Config Q V E)
    (fetch : List Q → FetchResult Q V E) (now : Nat)
    (st : BatcherState Q V) (e : BatchError Q V E)
    (store : StoreState V) (queries : List Q)
    (hfetchE : fetch (st.queue.map (fun item => item.originalQuery)) =
      .reject e)
    (hfetchL : fetch ((loadManyScanGo (E := E) cfg store
        (queries.map cfg.queryNormalizer) 0).2.1.map (fun p => p.1)) =
      .reject e) :
    ((executeBatch cfg fetch now st).2.1 =
        st.queue.map (fun item => .rejected (.batchFunctionError
          "Error executing batchFunction" (.one item.originalQuery)
          (some e))) ∧
      (executeBatch cfg fetch now st).1.store = st.store) ∧
    ((loadMany cfg fetch now store queries).1.length = queries.length ∧
      (loadMany cfg fetch now store queries).2.1 = store ∧
      ∀ jj p, (loadManyScanGo (E := E) cfg store
          (queries.map cfg.queryNormalizer) 0).2.1.get? jj = some p →
        (loadMany cfg fetch now store queries).1.get? p.2 =
          some (.err (.batchFunctionError "Error in batchFunction"
            (.one p.1) (some e)))) := by
  refine ⟨⟨?_, ?_⟩, ?_, ?_, ?_⟩
  · simp [executeBatch, hfetchE]
  · simp [executeBatch, hfetchE]
  · simp only [loadMany]
    split
    · rw [scan_slots_length]
      simp
    · rw [hfetchL]
      rw [rejectForwarded_length, scan_slots_length]
      simp
  · simp only [loadMany]
    split
    · rfl
    · rw [hfetchL]
  · intro jj p hjj
    simp only [loadMany]
    split
    · rename_i hemp
      rw [List.isEmpty_iff] at hemp
      rw [hemp] at hjj
      simp at hjj
    · rw [hfetchL]
      have hmem := List.get?_mem hjj
      have hbound := (scan_toFetch_mem cfg store _ 0 p hmem).2.1
      refine rejectForwarded_get? e _ _ jj p hjj
        (scan_toFetch_sorted cfg store _ 0) ?_
      rw [scan_slots_length]
      simp only [List.length_map] at hbound ⊢
      omega

/-- Witness for C5: a collaborator that always rejects with raw error 9,
a two-waiter batch, and loadMany over a and b with an empty cache. -/
theorem claim5_witness :
    fetchRejecting (twoWaiters.queue.map (fun item => item.originalQuery)) =
      .reject (.raw 9) ∧
    fetchRejecting ((loadManyScanGo (E := Nat) demoCfg emptyStore
        ((["a", "b"] : List String).map demoCfg.queryNormalizer)
        0).2.1.map (fun p => p.1)) = .reject (.raw 9) ∧
    (((executeBatch demoCfg fetchRejecting 0 twoWaiters).2.1 =
        twoWaiters.queue.map (fun item => .rejected (.batchFunctionError
          "Error executing batchFunction" (.one item.originalQuery)
          (some (.raw 9)))) ∧
      (executeBatch demoCfg fetchRejecting 0 twoWaiters).1.store =
        twoWaiters.store) ∧
    ((loadMany demoCfg fetchRejecting 0 emptyStore ["a", "b"]).1.length =
        (["a", "b"] : List String).length ∧
      (loadMany demoCfg fetchRejecting 0 emptyStore ["a", "b"]).2.1 =
        emptyStore ∧
      ∀ jj p, (loadManyScanGo (E := Nat) demoCfg emptyStore
          ((["a", "b"] : List String).map demoCfg.queryNormalizer)
          0).2.1.get? jj = some p →
        (loadMany demoCfg fetchRejecting 0 emptyStore
            ["a", "b"]).1.get? p.2 =
          some (.err (.batchFunctionError "Error in batchFunction"
            (.one p.1) (some (.raw 9)))))) :=
  ⟨rfl, rfl,
    claim5_total_rejection demoCfg fetchRejecting 0 twoWaiters (.raw 9)
      emptyStore ["a", "b"] rfl rfl⟩

/-- Counterexample to C4 as stated: a wrong-length (too short) but
array-shaped result does NOT fail every waiter with a BatchFunctionError.
With one forwarded query and an empty result array, loadMany returns the
scan placeholder NotFoundError (not a BatchFunctionError); with two
waiters and a one-element result, executeBatch resolves the first waiter,
leaves the second pending forever, and writes the cache. -/
theorem claim4_counterexample :
    (loadMany demoCfg fetchEmptyArr 0 emptyStore ["a"]).1 =
      [.err (.notFoundError ("Key not found in cache: " ++ "a")
        (.one "a"))] ∧
    (loadMany demoCfg fetchEmptyArr 0 emptyStore ["a"]).1.map
      Slot.isBatchFnSlot = [false] ∧
    (executeBatch demoCfg fetchOneValue 0 twoWaiters).2.1 =
      [.resolved 5, .pending] ∧
    (executeBatch demoCfg fetchOneValue 0 twoWaiters).1.store.memoryStore =
      [("a", 5)] := by
  refine ⟨rfl, rfl, ?_, ?_⟩
  · simp [executeBatch, twoWaiters, fetchOneValue, demux, setValueChecked,
      demoCfg_check, emptyStore]
  · simp only [executeBatch, twoWaiters, fetchOneValue, demux,
      setValueChecked, emptyStore]
    rw [demoCfg_check]
    simp [alistSet, alistHas, setExpiration, demoCfg]

/-- C4 as amended: a non-sequence result fails every pending waiter with
a BatchFunctionError and leaves the cache unmodified by that batch, in
both the executeBatch and the loadMany path; a wrong-length sequence is
not detected — outcomes are matched positionally and a waiter beyond the
end of the result array is never settled at all. -/
theorem claim4_amended_malformed {Q V E : Type} (cfg : Config Q V E)
    (fetchA fetchB fetchC : List Q → FetchResult Q V E) (now : Nat)
    (st st2 : BatcherState Q V) (store : StoreState V) (queries : List Q)
    (rs : List (FetchOutcome Q V E))
    (hNA : fetchA (st.queue.map (fun item => item.originalQuery)) =
      .nonArray)
    (hNAL : fetchB ((loadManyScanGo (E := E) cfg store
        (queries.map cfg.queryNormalizer) 0).2.1.map (fun p => p.1)) =
      .nonArray)
    (hshort : fetchC (st2.queue.map (fun item => item.originalQuery)) =
      .arr rs) :
    ((executeBatch cfg fetchA now st).2.1 = st.queue.map (fun _ =>
        .rejected (.batchFunctionError "batchFunction must return an array"
          (.many (st.queue.map (fun item => item.originalQuery))) none)) ∧
      (executeBatch cfg fetchA now st).1.store = st.store) ∧
    ((loadMany cfg fetchB now store queries).2.1 = store ∧
      ∀ jj p, (loadManyScanGo (E := E) cfg store
          (queries.map cfg.queryNormalizer) 0).2.1.get? jj = some p →
        (loadMany cfg fetchB now store queries).1.get? p.2 =
          some (.err (.batchFunctionError "Error in batchFunction"
            (.one p.1) (some (.batchFunctionError
              "batchFunction must return an array"
              (.many ((loadManyScanGo (E := E) cfg store
                (queries.map cfg.queryNormalizer) 0).2.1.map
                  (fun p => p.1))) none))))) ∧
    (∀ i item, st2.queue.get? i = some item → rs.get? i = none →
      (executeBatch cfg fetchC now st2).2.1.get? i = some .pending) := by
  refine ⟨⟨?_, ?_⟩, ⟨?_, ?_⟩, ?_⟩
  · simp [executeBatch, hNA]
  · simp [executeBatch, hNA]
  · simp only [loadMany]
    split
    · rfl
    · rw [hNAL]
  · intro jj p hjj
    simp only [loadMany]
    split
    · rename_i hemp
      rw [List.isEmpty_iff] at hemp
      rw [hemp] at hjj
      simp at hjj
    · rw [hNAL]
      have hmem := List.get?_mem hjj
      have hbound := (scan_toFetch_mem cfg store _ 0 p hmem).2.1
      refine rejectForwarded_get? _ _ _ jj p hjj
        (scan_toFetch_sorted cfg store _ 0) ?_
      rw [scan_slots_length]
      simp only [List.length_map] at hbound ⊢
      omega
  · intro i item hitem hnone
    rw [executeBatch_arr cfg fetchC now st2 rs hshort]
    rw [pointwiseSettle_get? cfg st2.store.memoryStore st2.queue rs i
      item hitem]
    rw [hnone]

/-- Witness for the amended C4: fetchNonArray against the two-waiter
batch and against loadMany of a, b; fetchOneValue as the too-short
result, leaving waiter 1 pending. -/
theorem claim4_witness :
    fetchNonArray (twoWaiters.queue.map (fun item => item.originalQuery)) =
      .nonArray ∧
    fetchNonArray ((loadManyScanGo (E := Nat) demoCfg emptyStore
        ((["a", "b"] : List String).map demoCfg.queryNormalizer)
        0).2.1.map (fun p => p.1)) = .nonArray ∧
    fetchOneValue (twoWaiters.queue.map (fun item => item.originalQuery)) =
      .arr [.value 5] ∧
    twoWaiters.queue.get? 1 =
      some { key := "b", originalQuery := "b" } ∧
    ([FetchOutcome.value 5] : List (FetchOutcome String Nat Nat)).get? 1 =
      none ∧
    (executeBatch demoCfg fetchOneValue 0 twoWaiters).2.1.get? 1 =
      some .pending :=
  ⟨rfl, rfl, rfl, rfl, rfl,
    (claim4_amended_malformed demoCfg fetchNonArray fetchNonArray
      fetchOneValue 0 twoWaiters twoWaiters emptyStore ["a", "b"]
      [.value 5] rfl rfl rfl).2.2 1
      { key := "b", originalQuery := "b" } rfl rfl⟩

/-! Positional lemmas for the loadMany result demultiplexer. -/

theorem pairwise_get?_rel {α : Type} {R : α → α → Prop} (l : List α)
    (hl : List.Pairwise R l) (a b : Nat) (x y : α)
    (hx : l.get? a = some x) (hy : l.get? b = some y) (hab : a < b) :
    R x y := by
  rw [List.get?_eq_some] at hx hy
  obtain ⟨ha, hx⟩ := hx
  obtain ⟨hb, hy⟩ := hy
  subst hx
  subst hy
  exact List.pairwise_iff_get.mp hl ⟨a, ha⟩ ⟨b, hb⟩ hab

/-- An error outcome at fetch position k lands (unwrapped) in the result
slot of its original index, and no later step disturbs it. -/
theorem applyBR_get_err {Q V E : Type} (cfg : Config Q V E) (now : Nat)
    (store0 : List (String × V)) (cacheKeys : List String)
    (toFetch : List (Q × Nat))
    (hsort : List.Pairwise (fun a b => a.2 < b.2) toFetch) :
    ∀ (rs : List (FetchOutcome Q V E)) (j k : Nat)
      (slots : List (Slot Q V E)) (st : StoreState V)
      (late : List (Nat × BatchError Q V E)) (p : Q × Nat)
      (e : BatchError Q V E),
      toFetch.get? (j + k) = some p →
      rs.get? k = some (.err e) →
      p.2 < slots.length →
      (applyBatchResults cfg now store0 cacheKeys toFetch rs j slots st
        late).1.get? p.2 = some (.err e) := by
  intro rs
  induction rs with
  | nil => intro j k slots st late p e _ hout _; simp at hout
  | cons r rest ih =>
      intro j k slots st late p e htf hout hlen
      obtain ⟨qp, ip⟩ := p
      cases k with
      | zero =>
          simp only [List.get?_cons_zero, Option.some.injEq] at hout
          subst hout
          rw [Nat.add_zero] at htf
          simp only [applyBatchResults, htf]
          rw [applyBR_preserve]
          · exact List.get?_set_eq_of_lt _ hlen
          · intro jj x hjj hge heq
            have hlt : (qp, ip).2 < x.2 :=
              pairwise_get?_rel toFetch hsort j jj (qp, ip) x htf hjj
                (by omega)
            simp only at hlt
            omega
      | succ n =>
          cases hj : toFetch.get? j with
          | none =>
              exfalso
              have h1 := List.get?_eq_none.mp hj
              rw [List.get?_eq_some] at htf
              obtain ⟨hbound, _⟩ := htf
              omega
          | some x =>
              obtain ⟨qx, ix⟩ := x
              have htf2 : toFetch.get? (j + 1 + n) = some (qp, ip) := by
                rw [show j + 1 + n = j + (n + 1) by omega]
                exact htf
              rw [List.get?_cons_succ] at hout
              cases r with
              | err e2 =>
                  simp only [applyBatchResults, hj]
                  refine ih (j + 1) n _ st late (qp, ip) e htf2 hout ?_
                  rw [List.length_set]
                  exact hlen
              | nullValue =>
                  simp only [applyBatchResults, hj]
                  refine ih (j + 1) n _ st late (qp, ip) e htf2 hout ?_
                  rw [List.length_set]
                  exact hlen
              | value v =>
                  simp only [applyBatchResults, hj]
                  cases hsv : setValueChecked (E := E) cfg now store0 st
                      (cacheKeys.getD ix "") v with
                  | ok st2 =>
                      simp only [hsv]
                      refine ih (j + 1) n _ st2 late (qp, ip) e htf2 hout ?_
                      rw [List.length_set]
                      exact hlen
                  | error se =>
                      simp only [hsv]
                      refine ih (j + 1) n _ st _ (qp, ip) e htf2 hout ?_
                      rw [List.length_set]
                      exact hlen

/-- Counterexample to C8 as stated: the collaborator-supplied error value
reaches the waiter and the loadMany slot unwrapped — it is not a
BatchFunctionError. -/
theorem claim8_counterexample :
    (executeBatch demoCfg fetchRawErr 0 oneWaiter).2.1 =
      [.rejected (.raw 7)] ∧
    ((executeBatch demoCfg fetchRawErr 0 oneWaiter).2.1.map
      Settlement.isBatchFnRejection) = [false] ∧
    (loadMany demoCfg fetchRawErr 0 emptyStore ["a"]).1 =
      [.err (.raw 7)] ∧
    ((loadMany demoCfg fetchRawErr 0 emptyStore ["a"]).1.map
      Slot.isBatchFnSlot) = [false] :=
  ⟨rfl, rfl, rfl, rfl⟩

/-- C8 as amended: an error outcome at index i makes the waiter at index
i fail with the collaborator-supplied error value itself, passed through
unwrapped (no BatchFunctionError wrapper, no query attached), in both
the executeBatch and the loadMany path. -/
theorem claim8_amended_raw_error {Q V E : Type} (cfg : Config Q V E)
    (fetchA fetchB : List Q → FetchResult Q V E) (now : Nat)
    (st : BatcherState Q V) (rs : List (FetchOutcome Q V E)) (i : Nat)
    (item : QueueItem Q) (e : BatchError Q V E) (store : StoreState V)
    (queries : List Q) (rsB : List (FetchOutcome Q V E)) (jj : Nat)
    (p : Q × Nat)
    (hfetchA : fetchA (st.queue.map (fun item => item.originalQuery)) =
      .arr rs)
    (hitem : st.queue.get? i = some item)
    (hout : rs.get? i = some (.err e))
    (hfetchB : fetchB ((loadManyScanGo (E := E) cfg store
        (queries.map cfg.queryNormalizer) 0).2.1.map (fun x => x.1)) =
      .arr rsB)
    (hp : (loadManyScanGo (E := E) cfg store
        (queries.map cfg.queryNormalizer) 0).2.1.get? jj = some p)
    (houtB : rsB.get? jj = some (.err e)) :
    (executeBatch cfg fetchA now st).2.1.get? i =
      some (.rejected e) ∧
    (loadMany cfg fetchB now store queries).1.get? p.2 =
      some (.err e) := by
  constructor
  · rw [executeBatch_arr cfg fetchA now st rs hfetchA]
    rw [pointwiseSettle_get? cfg st.store.memoryStore st.queue rs i
      item hitem]
    rw [hout]
    rfl
  · simp only [loadMany]
    split
    · rename_i hemp
      rw [List.isEmpty_iff] at hemp
      rw [hemp] at hp
      simp at hp
    · rw [hfetchB]
      have hmem := List.get?_mem hp
      have hbound := (scan_toFetch_mem cfg store _ 0 p hmem).2.1
      refine applyBR_get_err cfg now store.memoryStore _ _
        (scan_toFetch_sorted cfg store _ 0) rsB 0 jj _ store [] p e
        (by rw [Nat.zero_add]; exact hp) houtB ?_
      rw [scan_slots_length]
      simp only [List.length_map] at hbound ⊢
      omega

/-- Witness for the amended C8: a raw error outcome (raw 7) reaches the
single waiter and the single loadMany slot unwrapped. -/
theorem claim8_witness :
    fetchRawErr (oneWaiter.queue.map (fun item => item.originalQuery)) =
      .arr [.err (.raw 7)] ∧
    oneWaiter.queue.get? 0 = some { key := "a", originalQuery := "a" } ∧
    ([FetchOutcome.err (.raw 7)] :
      List (FetchOutcome String Nat Nat)).get? 0 = some (.err (.raw 7)) ∧
    (loadManyScanGo (E := Nat) demoCfg emptyStore
        ((["a"] : List String).map demoCfg.queryNormalizer) 0).2.1.get? 0 =
      some ("a", 0) ∧
    ((executeBatch demoCfg fetchRawErr 0 oneWaiter).2.1.get? 0 =
        some (.rejected (.raw 7)) ∧
      (loadMany demoCfg fetchRawErr 0 emptyStore ["a"]).1.get? ("a", 0).2 =
        some (.err (.raw 7))) :=
  ⟨rfl, rfl, rfl, rfl,
    claim8_amended_raw_error demoCfg fetchRawErr fetchRawErr 0 oneWaiter
      [.err (.raw 7)] 0 { key := "a", originalQuery := "a" } (.raw 7)
      emptyStore ["a"] [.err (.raw 7)] 0 ("a", 0)
      rfl rfl rfl rfl rfl rfl⟩

/-- Counterexample to C9 as stated: with a failing cache write, the
loadMany result slot still holds the raw value when the call resolves —
the CacheError exists only as a post-resolution overwrite, so the
returned sequence does not fail that position with a CacheError. -/
theorem claim9_counterexample :
    (loadMany tinyCfg fetchOneValue 0 emptyStore ["a"]).1 = [.value 5] ∧
    ((loadMany tinyCfg fetchOneValue 0 emptyStore ["a"]).1.map
      Slot.isCacheErrSlot) = [false] ∧
    (loadMany tinyCfg fetchOneValue 0 emptyStore ["a"]).2.2.1 =
      [(0, .cacheError ("Error setting value in cache for key " ++ "a")
        (.one "a")
        (.memoryLimitError
          ("Not enough memory to save data for key " ++ "a")
          (.keyValue "a" 5)))] := by
  have hnorm : tinyCfg.queryNormalizer "a" = "a" := rfl
  have hkey : tinyCfg.hashFn (extractCacheKey tinyCfg "a") = "a" := rfl
  have hget2 : get tinyCfg emptyStore "a" = .ok none := rfl
  have hchk : checkMemoryAvailability tinyCfg emptyStore.memoryStore
      [("a", 5)] = false := tinyCfg_check _ "a" 5
  refine ⟨?_, ?_, ?_⟩ <;>
    simp [loadMany, loadManyScanGo, applyBatchResults, setValueChecked,
      fetchOneValue, hnorm, hkey, hget2, hchk, Slot.isCacheErrSlot,
      BatchError.isCacheErr]

/-- C9 as amended: in the load path a value outcome is committed through
setValue before the waiter is resolved — the waiter resolves with the
value exactly when the memory check passes and is otherwise rejected
with a CacheError wrapping the MemoryLimitError cause — and every
settlement is pointwise in its own item and outcome, so siblings are
unaffected.  In the loadMany path the result slot is assigned the raw
value before the un-awaited cache write is attempted, and a failing
write leaves the returned slot holding the value, recording the
CacheError only as a post-resolution overwrite for that position. -/
theorem claim9_amended_cache_write {Q V E : Type} (cfg : Config Q V E)
    (fetchA fetchB : List Q → FetchResult Q V E) (now : Nat)
    (st : BatcherState Q V) (rs : List (FetchOutcome Q V E)) (i : Nat)
    (item : QueueItem Q) (v : V) (store : StoreState V) (q : Q) (w : V)
    (hfetchA : fetchA (st.queue.map (fun it => it.originalQuery)) = .arr rs)
    (hitem : st.queue.get? i = some item)
    (hout : rs.get? i = some (.value v))
    (hmiss : get cfg store (keyOf cfg q) = .ok none)
    (hfetchB : fetchB [cfg.queryNormalizer q] = .arr [.value w])
    (hfail : checkMemoryAvailability cfg store.memoryStore
      [(keyOf cfg q, w)] = false) :
    (executeBatch cfg fetchA now st).2.1.get? i =
      some (if checkMemoryAvailability cfg st.store.memoryStore
          [(item.key, v)] then .resolved v
        else .rejected (.cacheError
          ("Error setting value in cache during batch for key " ++
            item.key)
          (.one item.originalQuery)
          (.memoryLimitError
            ("Not enough memory to save data for key " ++ item.key)
            (.keyValue item.key v)))) ∧
    (∀ i2 item2, st.queue.get? i2 = some item2 →
      (executeBatch cfg fetchA now st).2.1.get? i2 =
        some (match rs.get? i2 with
              | some r => settleOne cfg st.store.memoryStore item2 r
              | none => .pending)) ∧
    (loadMany cfg fetchB now store [q]).1 = [.value w] ∧
    (loadMany cfg fetchB now store [q]).2.2.1 =
      [(0, .cacheError
        ("Error setting value in cache for key " ++ keyOf cfg q)
        (.one (cfg.queryNormalizer q))
        (.memoryLimitError
          ("Not enough memory to save data for key " ++ keyOf cfg q)
          (.keyValue (keyOf cfg q) w)))] := by
  have hpw : ∀ i2 item2, st.queue.get? i2 = some item2 →
      (executeBatch cfg fetchA now st).2.1.get? i2 =
        some (match rs.get? i2 with
              | some r => settleOne cfg st.store.memoryStore item2 r
              | none => .pending) := by
    intro i2 item2 hitem2
    rw [executeBatch_arr cfg fetchA now st rs hfetchA]
    exact pointwiseSettle_get? cfg st.store.memoryStore st.queue rs i2
      item2 hitem2
  refine ⟨?_, hpw, ?_, ?_⟩
  · rw [hpw i item hitem, hout]
    rfl
  · simp only [keyOf] at hmiss hfail
    simp [loadMany, loadManyScanGo, applyBatchResults, setValueChecked,
      hmiss, hfetchB, hfail, keyOf]
  · simp only [keyOf] at hmiss hfail
    simp [loadMany, loadManyScanGo, applyBatchResults, setValueChecked,
      hmiss, hfetchB, hfail, keyOf]

/-- Witness for the amended C9: tinyCfg refuses every write; the single
waiter is settled per its own outcome, and the single-query loadMany
returns the raw value with the CacheError only in the overwrite list. -/
theorem claim9_witness :
    fetchOneValue (oneWaiter.queue.map (fun it => it.originalQuery)) =
      .arr [.value 5] ∧
    oneWaiter.queue.get? 0 = some { key := "a", originalQuery := "a" } ∧
    ([FetchOutcome.value 5] :
      List (FetchOutcome String Nat Nat)).get? 0 = some (.value 5) ∧
    get tinyCfg emptyStore (keyOf tinyCfg "a") = .ok none ∧
    fetchOneValue [tinyCfg.queryNormalizer "a"] = .arr [.value 5] ∧
    checkMemoryAvailability tinyCfg emptyStore.memoryStore
      [(keyOf tinyCfg "a", 5)] = false ∧
    ((loadMany tinyCfg fetchOneValue 0 emptyStore ["a"]).1 =
        [.value 5] ∧
      (loadMany tinyCfg fetchOneValue 0 emptyStore ["a"]).2.2.1 =
        [(0, .cacheError
          ("Error setting value in cache for key " ++ keyOf tinyCfg "a")
          (.one (tinyCfg.queryNormalizer "a"))
          (.memoryLimitError
            ("Not enough memory to save data for key " ++
              keyOf tinyCfg "a")
            (.keyValue (keyOf tinyCfg "a") 5)))]) :=
  have hfail : checkMemoryAvailability tinyCfg emptyStore.memoryStore
      [(keyOf tinyCfg "a", 5)] = false := tinyCfg_check _ _ 5
  have h := claim9_amended_cache_write tinyCfg fetchOneValue fetchOneValue
    0 oneWaiter [.value 5] 0 { key := "a", originalQuery := "a" } 5
    emptyStore "a" 5 rfl rfl rfl rfl rfl hfail
  ⟨rfl, rfl, rfl, rfl, rfl, hfail, h.2.2.1, h.2.2.2⟩

/-- C10: cache read failures are handled asymmetrically by the two entry
points: load rejects immediately with a CacheError wrapping the cause and
registers nothing (the batcher state is untouched, so the query is never
enqueued for any batch), while loadMany records a CacheError placeholder
for the position but still forwards the query to the batch function, and
a successful value outcome overwrites the placeholder. -/
theorem claim10_cache_read_asymmetry {Q V E : Type} (cfg : Config Q V E)
    (fetch : List Q → FetchResult Q V E) (now : Nat)
    (st : BatcherState Q V) (q : Q) (e : E) (v : V)
    (hget : get cfg st.store (keyOf cfg q) = .error e)
    (hfetch : fetch [cfg.queryNormalizer q] = .arr [.value v])
    (hchk : checkMemoryAvailability cfg st.store.memoryStore
      [(keyOf cfg q, v)] = true) :
    load cfg st q = (.rejected (.cacheError
      ("Error getting value from cache for key " ++ keyOf cfg q)
      (.one (cfg.queryNormalizer q)) (.raw e)), st) ∧
    (loadManyScanGo (E := E) cfg st.store
        ([q].map cfg.queryNormalizer) 0).1 =
      [.err (.cacheError
        ("Error getting value from cache for key " ++ keyOf cfg q)
        (.one (cfg.queryNormalizer q)) (.raw e))] ∧
    (loadMany cfg fetch now st.store [q]).2.2.2 =
      [[cfg.queryNormalizer q]] ∧
    (loadMany cfg fetch now st.store [q]).1 = [.value v] := by
  simp only [keyOf] at hget hchk ⊢
  refine ⟨?_, ?_, ?_, ?_⟩
  · simp [load, hget]
  · simp [loadManyScanGo, hget]
  · simp [loadMany, loadManyScanGo, hget, hfetch]
  · simp [loadMany, loadManyScanGo, applyBatchResults, setValueChecked,
      hget, hfetch, hchk]

/-- Witness for C10: badCfg rejects cache reads of the key bad; load
rejects with a CacheError while loadMany forwards bad and returns the
fetched value 5. -/
theorem claim10_witness :
    get badCfg idleBatcher.store (keyOf badCfg "bad") = .error 3 ∧
    fetchOneValue [badCfg.queryNormalizer "bad"] = .arr [.value 5] ∧
    checkMemoryAvailability badCfg idleBatcher.store.memoryStore
      [(keyOf badCfg "bad", 5)] = true ∧
    (load badCfg idleBatcher "bad" = (.rejected (.cacheError
        ("Error getting value from cache for key " ++ keyOf badCfg "bad")
        (.one (badCfg.queryNormalizer "bad")) (.raw 3)), idleBatcher) ∧
      (loadManyScanGo (E := Nat) badCfg idleBatcher.store
          ((["bad"] : List String).map badCfg.queryNormalizer) 0).1 =
        [.err (.cacheError
          ("Error getting value from cache for key " ++ keyOf badCfg "bad")
          (.one (badCfg.queryNormalizer "bad")) (.raw 3))] ∧
      (loadMany badCfg fetchOneValue 0 idleBatcher.store
          ["bad"]).2.2.2 = [[badCfg.queryNormalizer "bad"]] ∧
      (loadMany badCfg fetchOneValue 0 idleBatcher.store ["bad"]).1 =
        [.value 5]) :=
  ⟨rfl, rfl, badCfg_check _ _,
    claim10_cache_read_asymmetry badCfg fetchOneValue 0 idleBatcher
      "bad" 3 5 rfl rfl (badCfg_check _ _)⟩

end SmartBatcher
